import Mathlib

/-!
Verification of the drand HTTP relay against its natural-language specification.

This file shallowly embeds the relevant parts of the Go sources:
  * hex encoding and decoding as used by `grpc.HexBytes` (src/grpc/beacon.go),
  * the beacon envelope `HexBeacon` and its randomness mutators (src/grpc/beacon.go),
  * the chain-info record `JsonInfoV2` and its `ExpectedNext` time model
    (src/unnamed/part_010, lines 225-230),
  * the gRPC client beacon fetch `Client.GetBeacon` (src/unnamed/part_010, lines 114-133),
  * the HTTP handlers `GetBeacon`, `GetHealth`, `GetLatest` (src/unnamed/part_011),
  * the fallback resolver `FallbackResolver.start` (src/unnamed/part_006, lines 36-47),
  * the fallback balancer pool, `first`, `second`, `dec` and the picker `Pick`
    (src/grpc/fallback_balancer.go, first revision, lines 121-354).

Conventions: Go byte slices are `List Nat` with every element `< 256`; Go strings that are
treated as byte strings (hex input and output) are also `List Nat`; `uint64` values are `Nat`
taken modulo `2 ^ 64` where Go arithmetic can wrap; `int64` values are `Int` (the claims never
exercise `int64` overflow, and hypotheses keep the quantities in range where it matters).
Go's integer division truncates toward zero, which is `Int.tdiv`.
Effectful calls (gRPC fetches) are passed in as `Except` results, and clock reads
(`time.Now().Unix()`) are passed in as explicit `Int` parameters, one per call site.
-/

/-! ## Hex encoding (Go `encoding/hex`, consumed by `grpc.HexBytes`) -/

/-- The byte table `"0123456789abcdef"` used by Go `encoding/hex` for encoding. -/
def hextable : List Nat := [48, 49, 50, 51, 52, 53, 54, 55, 56, 57, 97, 98, 99, 100, 101, 102]

/-- Go `encoding/hex.fromHexChar`: maps the byte of an ASCII hex digit to its value;
digits `0-9`, lower `a-f` and upper `A-F` are accepted. -/
def fromHexChar (c : Nat) : Option Nat :=
  if 48 ≤ c ∧ c ≤ 57 then some (c - 48)
  else if 97 ≤ c ∧ c ≤ 102 then some (c - 97 + 10)
  else if 65 ≤ c ∧ c ≤ 70 then some (c - 65 + 10)
  else none

/-- Go `encoding/hex.EncodeToString` on a byte slice, producing the bytes of the output
string: each input byte `v` yields `hextable[v >> 4]` and `hextable[v & 15]`. -/
def EncodeToString : List Nat → List Nat
  | [] => []
  | v :: rest => hextable.getD (v / 16) 0 :: hextable.getD (v % 16) 0 :: EncodeToString rest

/-- Go `encoding/hex.DecodeString` on the bytes of the input string. Consumes two hex digits
per output byte; a non-digit byte or a trailing odd byte makes the whole decode fail, which is
how `HexBytes.UnmarshalJSON` consumes it (the partial output Go also returns is discarded). -/
def DecodeString : List Nat → Option (List Nat)
  | [] => some []
  | [_] => none
  | a :: b :: rest =>
    match fromHexChar a, fromHexChar b, DecodeString rest with
    | some hi, some lo, some tail => some ((hi * 16 + lo) :: tail)
    | _, _, _ => none

/-- ASCII lowercasing of a byte string, the restriction of Go `strings.ToLower` to ASCII;
hex strings are ASCII so nothing is lost. -/
def toLowerAscii (s : List Nat) : List Nat :=
  s.map (fun c => if 65 ≤ c ∧ c ≤ 90 then c + 32 else c)

/-! ## Beacon envelope (src/grpc/beacon.go) -/

/-- `grpc.HexBeacon` (src/grpc/beacon.go lines 11-16). Byte fields are byte lists;
the JSON tags mark `randomness` and `previous_signature` as `omitempty`. -/
structure HexBeacon where
  Round : Nat
  Randomness : List Nat
  Signature : List Nat
  PreviousSignature : List Nat
deriving DecidableEq, Repr

/-- The wire response of the `PublicRand` RPC, as seen through the `RandomData`
getters (`GetRound`, `GetRandomness`, `GetSignature`, `GetPreviousSignature`). -/
structure PublicRandResponse where
  Round : Nat
  Randomness : List Nat
  Signature : List Nat
  PreviousSignature : List Nat
deriving DecidableEq, Repr

/-- `grpc.NewHexBeacon` (src/grpc/beacon.go lines 48-54): builds the envelope from the wire
response, copying round, signature and previous signature; the `Randomness` field is left at
its zero value (nil), whatever the backend sent. -/
def NewHexBeacon (beacon : PublicRandResponse) : HexBeacon :=
  { Round := beacon.Round
    Randomness := []
    Signature := beacon.Signature
    PreviousSignature := beacon.PreviousSignature }

/-- `HexBeacon.SetRandomness` (src/grpc/beacon.go lines 22-24): fills `Randomness` from the
signature. The external `crypto.RandomnessFromSignature` is passed in as the parameter
`rfs`; only that it is a function of the signature matters here. -/
def HexBeacon.SetRandomness (rfs : List Nat → List Nat) (h : HexBeacon) : HexBeacon :=
  { h with Randomness := rfs h.Signature }

/-- `HexBeacon.UnsetRandomness` (src/grpc/beacon.go lines 26-28): clears `Randomness`. -/
def HexBeacon.UnsetRandomness (h : HexBeacon) : HexBeacon :=
  { h with Randomness := [] }

/-- The keys of the JSON object `json.Marshal` produces for a `HexBeacon`, in struct order;
`randomness` and `previous_signature` carry `omitempty` so they appear only when non-empty. -/
def HexBeacon.marshalKeys (h : HexBeacon) : List String :=
  ["round"] ++ (if h.Randomness = [] then [] else ["randomness"]) ++ ["signature"] ++
    (if h.PreviousSignature = [] then [] else ["previous_signature"])

/-- `Client.GetBeacon` (src/unnamed/part_010 lines 114-133): one `PublicRand` call, one retry
on failure (the fallback balancer moves the retry to another subconn), and the successful wire
response is wrapped with `NewHexBeacon`. The two call results are the two parameters. -/
def Client.GetBeacon (r1 r2 : Except Unit PublicRandResponse) : Except Unit HexBeacon :=
  match r1 with
  | .ok resp => .ok (NewHexBeacon resp)
  | .error _ =>
    match r2 with
    | .ok resp => .ok (NewHexBeacon resp)
    | .error e => .error e

/-! ## Chain info and the time model (src/unnamed/part_010) -/

/-- `grpc.JsonInfoV2` (src/unnamed/part_010 lines 203-211). `Period` is a `uint32`,
`GenesisTime` an `int64`. -/
structure JsonInfoV2 where
  PublicKey : List Nat
  Period : Nat
  GenesisTime : Int
  GenesisSeed : List Nat
  Hash : List Nat
  Scheme : String
  BeaconId : String
deriving DecidableEq, Repr

/-- The modulus of Go `uint64` arithmetic. -/
def U64 : Nat := 2 ^ 64

/-- Go conversion `uint64(x)` of an `int64` value: reduction modulo `2 ^ 64`. -/
def uint64OfInt (z : Int) : Nat := (z % (U64 : Int)).toNat

/-- `JsonInfoV2.ExpectedNext` (src/unnamed/part_010 lines 225-230). The source reads
`time.Now().Unix()`; that clock value is the parameter `now`. Go `/` on `int64` truncates
toward zero, hence `Int.tdiv`. Returns `(expectedTime, expectedRound)`. -/
def JsonInfoV2.ExpectedNext (info : JsonInfoV2) (now : Int) : Int × Nat :=
  let p : Int := info.Period
  let expected := Int.tdiv (now - info.GenesisTime) p + 1
  (expected * p + info.GenesisTime, uint64OfInt expected)

/-! ## HTTP responses and handlers (src/unnamed/part_011) -/

/-- The response body, abstracted: a successful beacon body is determined by the envelope it
marshals, the health body by its two numbers, and every other body is plain text. -/
inductive RespBody where
  | beacon (b : HexBeacon)
  | health (current expected : Nat)
  | text (s : String)
deriving DecidableEq, Repr

/-- What a handler writes: the status code, the `Cache-Control` header if the handler set one
(`none` means the handler never touched it), and the body. -/
structure HttpResponse where
  status : Nat
  cacheControl : Option String
  body : RespBody
deriving DecidableEq, Repr

/-- Failure modes of `Client.GetChainInfo` distinguished by the `GetBeacon` handler:
a cancelled context (504), an "unknown chain hash" error (400), anything else (500). -/
inductive InfoFetchErr where
  | canceled
  | unknownChainHash
  | other
deriving DecidableEq, Repr

/-- The `GetBeacon` HTTP handler (src/unnamed/part_011 lines 43-131). Parameters stand for
the effectful steps, in source order: `mdOk` is whether `createRequestMD` succeeded,
`roundParam` the `strconv.ParseUint` result, `infoRes` the `GetChainInfo` result, `now1` the
clock inside `ExpectedNext`, `beaconRes` the `Client.GetBeacon` result, `now2` the clock at
the cache-header computation. The `time.Sleep` frontrun wait (round equal to the next round)
changes no observable output and is not represented. Marshalling of the model envelope is
total, so the `json.Marshal` failure branch does not appear. -/
def GetBeacon (rfs : List Nat → List Nat) (isV2 : Bool) (mdOk : Bool)
    (roundParam : Option Nat) (infoRes : Except InfoFetchErr JsonInfoV2)
    (beaconRes : Except Unit PublicRandResponse) (now1 now2 : Int) : HttpResponse :=
  if !mdOk then
    { status := 500, cacheControl := none, body := .text ("Failed to get beacon") }
  else
    match roundParam with
    | none =>
      { status := 400, cacheControl := some ("public, max-age=604800, immutable")
        body := .text ("Failed to parse round") }
    | some round =>
      match infoRes with
      | .error e =>
        { status := match e with
            | .canceled => 504
            | .unknownChainHash => 400
            | .other => 500
          cacheControl := some ("must-revalidate, no-cache, max-age=0")
          body := .text (match e with
            | .canceled => "timeout"
            | .unknownChainHash => "unknown chain hash"
            | .other => "Failed to get beacon") }
      | .ok info =>
        let nt := info.ExpectedNext now1
        -- Go: `round >= nextRound+1` on uint64, so the increment wraps modulo 2^64
        if (nt.2 + 1) % U64 ≤ round then
          { status := 425, cacheControl := some ("must-revalidate, no-cache, max-age=0")
            body := .text ("Requested future beacon") }
        else
          match beaconRes with
          | .error _ =>
            { status := 500, cacheControl := some ("must-revalidate, no-cache, max-age=0")
              body := .text ("Failed to get beacon") }
          | .ok resp =>
            let beacon :=
              if isV2 then (NewHexBeacon resp).UnsetRandomness
              else (NewHexBeacon resp).SetRandomness rfs
            if round ≠ 0 then
              { status := 200, cacheControl := some ("public, max-age=604800, immutable")
                body := .beacon beacon }
            else
              -- Go: cacheTime := nextTime - time.Now().Unix(); if cacheTime < 0 { cacheTime = 0 }
              let cacheTime := nt.1 - now2
              let cacheTime := if cacheTime < 0 then 0 else cacheTime
              { status := 200
                cacheControl := some ("public, must-revalidate, max-age=" ++ toString cacheTime)
                body := .beacon beacon }

/-- The `GetLatest` HTTP handler (src/unnamed/part_011 lines 292-329): metadata, one
`Client.GetBeacon` call with round 0, randomness set or unset by API version, marshal, write.
It sets no `Cache-Control` header on any path and writes no explicit status on success. -/
def GetLatest (rfs : List Nat → List Nat) (isV2 : Bool) (mdOk : Bool)
    (beaconRes : Except Unit PublicRandResponse) : HttpResponse :=
  if !mdOk then
    { status := 500, cacheControl := none, body := .text ("Failed to get latest") }
  else
    match beaconRes with
    | .error _ =>
      { status := 500, cacheControl := none, body := .text ("Failed to get beacon") }
    | .ok resp =>
      let beacon :=
        if isV2 then (NewHexBeacon resp).UnsetRandomness
        else (NewHexBeacon resp).SetRandomness rfs
      { status := 200, cacheControl := none, body := .beacon beacon }

/-- The `GetHealth` HTTP handler (src/unnamed/part_011 lines 155-214). `latest1Res` is the
first round-0 fetch, `latest2Res` the retry issued with the `SkipCtxKey` context when the
backend looks stale. The second component of the result records whether that skip-first retry
was issued. All `uint64` subtractions (`next-2`, `next-1`) wrap modulo `2 ^ 64`. -/
def GetHealth (mdOk : Bool) (latest1Res : Except Unit HexBeacon)
    (infoRes : Except Unit JsonInfoV2) (latest2Res : Except Unit HexBeacon)
    (now : Int) : HttpResponse × Bool :=
  if !mdOk then
    ({ status := 500, cacheControl := some ("no-cache"), body := .text ("Failed to get health") },
      false)
  else
    match latest1Res with
    | .error _ =>
      ({ status := 500, cacheControl := some ("no-cache")
         body := .text ("Failed to get latest beacon for health") }, false)
    | .ok latest =>
      match infoRes with
      | .error _ =>
        ({ status := 500, cacheControl := some ("no-cache")
           body := .text ("Failed to get chain info for health") }, false)
      | .ok info =>
        let next := (info.ExpectedNext now).2
        -- Go: `next-2 > latest.Round` on uint64
        if (next + U64 - 2) % U64 > latest.Round then
          match latest2Res with
          | .error _ =>
            ({ status := 500, cacheControl := some ("no-cache")
               body := .text ("Failed to get latest beacon for health") }, true)
          | .ok latest2 =>
            ({ status := if latest2.Round ≥ (next + U64 - 2) % U64 then 200 else 503
               cacheControl := some ("no-cache")
               body := .health latest2.Round ((next + U64 - 1) % U64) }, true)
        else
          ({ status := if latest.Round ≥ (next + U64 - 2) % U64 then 200 else 503
             cacheControl := some ("no-cache")
             body := .health latest.Round ((next + U64 - 1) % U64) }, false)

/-! ## Fallback resolver (src/unnamed/part_006) -/

/-- A `resolver.Address` record as the fallback balancer consumes it: the address string, the
server name, and the value of the integer attribute keyed `"order"` when one is attached. -/
structure ResolverAddress where
  addr : String
  serverName : String
  attrOrder : Option Int
deriving DecidableEq, Repr

/-- Go `strings.Split(s, ",")` on the characters of `s`: cut at every comma; the empty string
yields one empty field. -/
def splitOnComma : List Char → List (List Char)
  | [] => [[]]
  | c :: rest =>
    if c = ',' then [] :: splitOnComma rest
    else
      match splitOnComma rest with
      | [] => [[c]]
      | h :: t => (c :: h) :: t

/-- `FallbackResolver.start` (src/unnamed/part_006 lines 36-47): splits the endpoint on commas
and emits one `resolver.Address{Addr: a, ServerName: a}` per entry. No attribute of any kind
is attached to the addresses. -/
def FallbackResolver.start (endpoint : String) : List ResolverAddress :=
  ((splitOnComma endpoint.toList).map String.mk).map
    (fun a => { addr := a, serverName := a, attrOrder := none })

/-! ## Fallback balancer and picker (src/grpc/fallback_balancer.go, first revision) -/

/-- `scWithAddr` (src/grpc/fallback_balancer.go lines 194-205): the pool entry. `sc` stands
for the `balancer.SubConn` handle (handles are distinct per map key). -/
structure scWithAddr where
  sc : Nat
  addr : String
  priority : Int
  order : Int
deriving DecidableEq, Repr

/-- `scCmp` (src/grpc/fallback_balancer.go lines 231-240): nil sorts after everything,
otherwise compare by `priority`. -/
def scCmp : Option scWithAddr → Option scWithAddr → Int
  | none, _ => 1
  | some _, none => -1
  | some s, some t => s.priority - t.priority

/-- The non-nil case of `insert` (src/grpc/fallback_balancer.go lines 243-249):
`slices.BinarySearchFunc` finds the leftmost slot whose element compares `≥ 0` against the
new entry and `slices.Insert` places it there; on the priority-sorted lists maintained by
`first` and `second` this is the same slot a linear scan finds. -/
def scInsertAux : List (Option scWithAddr) → scWithAddr → List (Option scWithAddr)
  | [], v => [some v]
  | t :: rest, v => if 0 ≤ scCmp t (some v) then some v :: t :: rest else t :: scInsertAux rest v

/-- `insert` (src/grpc/fallback_balancer.go lines 243-249): nil entries are dropped,
others are placed at their sorted slot. -/
def scInsert (scs : List (Option scWithAddr)) (s : Option scWithAddr) :
    List (Option scWithAddr) :=
  match s with
  | none => scs
  | some v => scInsertAux scs v

/-- `fallbackBalancer.first` (src/grpc/fallback_balancer.go lines 134-151): the single entry
when the pool has exactly one, else the head of the sort seeded with one nil slot. The pool is
the balancer's `scAddrs` map; its iteration order is the list order here. -/
def fbFirst (pool : List scWithAddr) : Option scWithAddr :=
  match pool with
  | [p] => some p
  | _ => (pool.foldl (fun acc sca => scInsert acc (some sca)) [none]).headD none

/-- `fallbackBalancer.second` (src/grpc/fallback_balancer.go lines 153-167): nil unless the
pool has at least two entries, else index 1 of the sorted pool. -/
def fbSecond (pool : List scWithAddr) : Option scWithAddr :=
  if pool.length < 2 then none
  else ((pool.foldl (fun acc sca => scInsert acc (some sca)) [])[1]?).join

/-- `fallbackBalancer.dec` (src/grpc/fallback_balancer.go lines 121-130): demote the entry of
the given subconn by adding `-2` to its priority. -/
def fbDec (pool : List scWithAddr) (sc : Nat) : List scWithAddr :=
  pool.map (fun e => if e.sc = sc then { e with priority := e.priority + (-2) } else e)

/-- `picker.Pick` (src/grpc/fallback_balancer.go lines 320-354) restricted to its pool effect:
pick `first`; when the per-call context carries `skip_first` and a `second` exists, demote the
first and return the second. Returns the picked entry (none models the
`ErrNoSubConnAvailable` failure) and the pool after the demotion, if any. -/
def fbPick (skip : Bool) (pool : List scWithAddr) : Option scWithAddr × List scWithAddr :=
  let picked := fbFirst pool
  if skip then
    match fbSecond pool with
    | some s =>
      match picked with
      | some f => (some s, fbDec pool f.sc)
      | none => (some s, pool)
    | none =>
      match picked with
      | some p => (some p, pool)
      | none => (none, pool)
  else
    match picked with
    | some p => (some p, pool)
    | none => (none, pool)

/-- `fallbackBalancer.Build` (src/grpc/fallback_balancer.go lines 272-291) restricted to the
entries it stores: every READY subconn whose address carries an integer `"order"` attribute
gets a pool entry with `priority = order = attribute`; subconns whose address has no such
attribute are skipped with an "invalid order attribute" error log. -/
def fbBuild (ready : List (Nat × ResolverAddress)) : List scWithAddr :=
  ready.foldl
    (fun acc p =>
      match p.2.attrOrder with
      | some o => acc ++ [{ sc := p.1, addr := p.2.addr, priority := o, order := o }]
      | none => acc)
    []

/-! ## Proof-layer definitions for the balancer sort -/

/-- The priority order the balancer sorts pool entries by. -/
def prioLe (a b : scWithAddr) : Prop := a.priority ≤ b.priority

instance : DecidableRel prioLe := fun a b => inferInstanceAs (Decidable (a.priority ≤ b.priority))

instance : IsTotal scWithAddr prioLe := ⟨fun a b => le_total a.priority b.priority⟩

instance : IsTrans scWithAddr prioLe := ⟨fun _ _ _ hab hbc => le_trans hab hbc⟩

/-- The priority-sorted pool, the plain-list counterpart of the fold in `first`/`second`. -/
def sortPool (pool : List scWithAddr) : List scWithAddr :=
  pool.foldl (fun acc v => List.orderedInsert prioLe v acc) []

/-! ## Helper lemmas -/

theorem hextable_getD (d : Nat) (hd : d < 16) :
    hextable.getD d 0 = if d < 10 then 48 + d else 87 + d := by
  interval_cases d <;> rfl

theorem fromHexChar_hextable (d : Nat) (hd : d < 16) :
    fromHexChar (hextable.getD d 0) = some d := by
  interval_cases d <;> rfl

theorem fromHexChar_spec (c d : Nat) (h : fromHexChar c = some d) :
    d < 16 ∧ hextable.getD d 0 = (if 65 ≤ c ∧ c ≤ 90 then c + 32 else c) := by
  unfold fromHexChar at h
  split_ifs at h with h1 h2 h3 <;> injection h with h' <;> subst h'
  · have hd : c - 48 < 16 := by omega
    rw [hextable_getD _ hd]
    split_ifs <;> omega
  · have hd : c - 97 + 10 < 16 := by omega
    rw [hextable_getD _ hd]
    split_ifs <;> omega
  · have hd : c - 65 + 10 < 16 := by omega
    rw [hextable_getD _ hd]
    split_ifs <;> omega

theorem decode_encode (b : List Nat) (hb : ∀ x ∈ b, x < 256) :
    DecodeString (EncodeToString b) = some b := by
  induction b with
  | nil => rfl
  | cons v rest ih =>
    have hv : v < 256 := hb v (List.mem_cons_self v rest)
    have hhi : v / 16 < 16 := by omega
    have hlo : v % 16 < 16 := by omega
    simp only [EncodeToString, DecodeString, fromHexChar_hextable _ hhi,
      fromHexChar_hextable _ hlo, ih (fun x hx => hb x (List.mem_cons_of_mem v hx))]
    have : v / 16 * 16 + v % 16 = v := by omega
    rw [this]

theorem encode_decode (s : List Nat) : ∀ bs, DecodeString s = some bs →
    EncodeToString bs = toLowerAscii s := by
  match s with
  | [] =>
    intro bs h
    simp only [DecodeString, Option.some.injEq] at h
    subst h
    rfl
  | [a] =>
    intro bs h
    simp [DecodeString] at h
  | a :: b :: rest =>
    intro bs h
    simp only [DecodeString] at h
    rcases ha : fromHexChar a with _ | hi <;> rw [ha] at h
    · exact absurd h (by simp)
    rcases hbd : fromHexChar b with _ | lo <;> rw [hbd] at h
    · exact absurd h (by simp)
    rcases hrest : DecodeString rest with _ | tail <;> rw [hrest] at h
    · exact absurd h (by simp)
    simp only [Option.some.injEq] at h
    subst h
    obtain ⟨hhi, hta⟩ := fromHexChar_spec a hi ha
    obtain ⟨hlo, htb⟩ := fromHexChar_spec b lo hbd
    have h1 : (hi * 16 + lo) / 16 = hi := by omega
    have h2 : (hi * 16 + lo) % 16 = lo := by omega
    simp only [EncodeToString, toLowerAscii, List.map, h1, h2, hta, htb,
      encode_decode rest tail hrest]

theorem decode_odd (s : List Nat) : s.length % 2 = 1 → DecodeString s = none := by
  match s with
  | [] => intro h; simp at h
  | [a] => intro _; rfl
  | a :: b :: rest =>
    intro h
    have hrest : rest.length % 2 = 1 := by
      simp only [List.length_cons] at h
      omega
    simp only [DecodeString, decode_odd rest hrest]
    rcases fromHexChar a with _ | hi <;> rcases fromHexChar b with _ | lo <;> rfl

theorem uint64OfInt_lt (z : Int) : uint64OfInt z < U64 := by
  unfold uint64OfInt U64
  have h1 : z % ((2 ^ 64 : Nat) : Int) < (2 ^ 64 : Nat) := Int.emod_lt_of_pos z (by norm_num)
  omega

theorem uint64OfInt_of_lt (z : Int) (h0 : 0 ≤ z) (h1 : z < (U64 : Int)) :
    (uint64OfInt z : Int) = z := by
  unfold uint64OfInt
  rw [Int.emod_eq_of_lt h0 h1, Int.toNat_of_nonneg h0]

theorem ExpectedNext_bounds (info : JsonInfoV2) (now : Int) (hp : 1 ≤ (info.Period : Int))
    (hg : info.GenesisTime ≤ now) :
    0 < (info.ExpectedNext now).1 - now ∧ (info.ExpectedNext now).1 - now ≤ (info.Period : Int) := by
  unfold JsonInfoV2.ExpectedNext
  set p : Int := (info.Period : Int) with hpdef
  set d : Int := now - info.GenesisTime with hddef
  have hd0 : 0 ≤ d := by omega
  have hp0 : (0 : Int) < p := by omega
  have htdiv : Int.tdiv d p = d / p := Int.tdiv_eq_ediv hd0 (le_of_lt hp0)
  have hdm : p * (d / p) + d % p = d := Int.ediv_add_emod d p
  have hm0 : 0 ≤ d % p := Int.emod_nonneg d (by omega)
  have hm1 : d % p < p := Int.emod_lt_of_pos d hp0
  simp only [htdiv]
  constructor <;> [skip; skip] <;> nlinarith [hdm, hm0, hm1]

theorem ExpectedNext_round_eq (info : JsonInfoV2) (now : Int) (hp : 1 ≤ (info.Period : Int))
    (hg : info.GenesisTime ≤ now) (hrange : now - info.GenesisTime < 2 ^ 63) :
    ((info.ExpectedNext now).2 : Int) = Int.tdiv (now - info.GenesisTime) (info.Period : Int) + 1 := by
  unfold JsonInfoV2.ExpectedNext
  set p : Int := (info.Period : Int) with hpdef
  set d : Int := now - info.GenesisTime with hddef
  have hd0 : 0 ≤ d := by omega
  have hp0 : (0 : Int) < p := by omega
  have htdiv : Int.tdiv d p = d / p := Int.tdiv_eq_ediv hd0 (le_of_lt hp0)
  have hqle : d / p ≤ d := Int.ediv_le_self p hd0
  have hq0 : 0 ≤ d / p := Int.ediv_nonneg hd0 (le_of_lt hp0)
  simp only [htdiv]
  exact uint64OfInt_of_lt _ (by omega) (by unfold U64; push_cast; omega)

theorem scInsertAux_map_some (l : List scWithAddr) (v : scWithAddr) :
    scInsertAux (l.map some) v = (List.orderedInsert prioLe v l).map some := by
  induction l with
  | nil => rfl
  | cons t rest ih =>
    simp only [List.map_cons, scInsertAux, List.orderedInsert, scCmp]
    by_cases h : prioLe v t
    · rw [if_pos (by unfold prioLe at h; omega), if_pos h]
      rfl
    · rw [if_neg (by unfold prioLe at h; omega), if_neg h, ih]
      rfl

theorem scInsertAux_append_none (l : List (Option scWithAddr)) (v : scWithAddr) :
    scInsertAux (l ++ [none]) v = scInsertAux l v ++ [none] := by
  induction l with
  | nil => rfl
  | cons t rest ih =>
    simp only [List.cons_append, scInsertAux]
    split
    · rfl
    · rw [show rest.append [none] = rest ++ [none] from rfl, ih]
      rfl

theorem fold_scInsert_map (pool : List scWithAddr) :
    ∀ init : List scWithAddr,
      pool.foldl (fun acc sca => scInsert acc (some sca)) (init.map some) =
        (pool.foldl (fun acc v => List.orderedInsert prioLe v acc) init).map some := by
  induction pool with
  | nil => intro init; rfl
  | cons a pool ih =>
    intro init
    simp only [List.foldl_cons]
    rw [show scInsert (init.map some) (some a) = scInsertAux (init.map some) a from rfl,
      scInsertAux_map_some]
    exact ih _

theorem fold_scInsert_none (pool : List scWithAddr) :
    ∀ init : List (Option scWithAddr),
      pool.foldl (fun acc sca => scInsert acc (some sca)) (init ++ [none]) =
        pool.foldl (fun acc sca => scInsert acc (some sca)) init ++ [none] := by
  induction pool with
  | nil => intro init; rfl
  | cons a pool ih =>
    intro init
    simp only [List.foldl_cons]
    rw [show scInsert (init ++ [none]) (some a) = scInsertAux (init ++ [none]) a from rfl,
      scInsertAux_append_none]
    exact ih _

theorem fold_oi_perm (pool : List scWithAddr) :
    ∀ init : List scWithAddr,
      (pool.foldl (fun acc v => List.orderedInsert prioLe v acc) init).Perm (pool ++ init) := by
  induction pool with
  | nil => intro init; simp
  | cons a pool ih =>
    intro init
    simp only [List.foldl_cons, List.cons_append]
    have h1 := ih (List.orderedInsert prioLe a init)
    have h2 : (pool ++ List.orderedInsert prioLe a init).Perm (pool ++ a :: init) :=
      List.Perm.append_left pool (List.perm_orderedInsert prioLe a init)
    have h3 : (pool ++ a :: init).Perm (a :: (pool ++ init)) := List.perm_middle
    exact (h1.trans h2).trans h3

theorem sortPool_perm (pool : List scWithAddr) : (sortPool pool).Perm pool := by
  have h := fold_oi_perm pool []
  simpa [sortPool] using h

theorem fold_oi_sorted (pool : List scWithAddr) :
    ∀ init : List scWithAddr, init.Sorted prioLe →
      (pool.foldl (fun acc v => List.orderedInsert prioLe v acc) init).Sorted prioLe := by
  induction pool with
  | nil => intro init h; exact h
  | cons a pool ih =>
    intro init h
    simp only [List.foldl_cons]
    exact ih _ (List.Sorted.orderedInsert a init h)

theorem sortPool_sorted (pool : List scWithAddr) : (sortPool pool).Sorted prioLe :=
  fold_oi_sorted pool [] List.sorted_nil

theorem sortPool_length (pool : List scWithAddr) : (sortPool pool).length = pool.length :=
  (sortPool_perm pool).length_eq

theorem fold_none_decomp (pool : List scWithAddr) :
    pool.foldl (fun acc sca => scInsert acc (some sca)) [none] =
      (sortPool pool).map some ++ [none] := by
  have h1 := fold_scInsert_none pool []
  have h2 := fold_scInsert_map pool []
  calc pool.foldl (fun acc sca => scInsert acc (some sca)) [none]
      = pool.foldl (fun acc sca => scInsert acc (some sca)) ([] ++ [none]) := rfl
    _ = pool.foldl (fun acc sca => scInsert acc (some sca)) [] ++ [none] := h1
    _ = (sortPool pool).map some ++ [none] := by rw [show pool.foldl (fun acc sca => scInsert acc (some sca)) ([] : List (Option scWithAddr)) = pool.foldl (fun acc sca => scInsert acc (some sca)) (([] : List scWithAddr).map some) from rfl, h2]; rfl

theorem fbPool_min (pool : List scWithAddr) (emin : scWithAddr) (h2 : 2 ≤ pool.length)
    (hnd : pool.Nodup) (hmem : emin ∈ pool)
    (hmin : ∀ e ∈ pool, e ≠ emin → emin.priority < e.priority) :
    fbFirst pool = some emin ∧
      ∃ r, fbSecond pool = some r ∧ r ∈ pool ∧ r ≠ emin := by
  obtain ⟨s0, s1, rest, hSP⟩ : ∃ s0 s1 rest, sortPool pool = s0 :: s1 :: rest := by
    have hlen : (sortPool pool).length = pool.length := sortPool_length pool
    rcases hS : sortPool pool with _ | ⟨t0, _ | ⟨t1, trest⟩⟩
    · rw [hS] at hlen; simp at hlen; omega
    · rw [hS] at hlen; simp at hlen; omega
    · exact ⟨t0, t1, trest, rfl⟩
  have hsorted : (s0 :: s1 :: rest).Sorted prioLe := by
    have hx := sortPool_sorted pool
    rwa [hSP] at hx
  have hperm : (s0 :: s1 :: rest).Perm pool := by
    have hx := sortPool_perm pool
    rwa [hSP] at hx
  have hs0pool : s0 ∈ pool := hperm.mem_iff.mp (by simp)
  have hs1pool : s1 ∈ pool := hperm.mem_iff.mp (by simp)
  have heminS : emin ∈ s0 :: s1 :: rest := hperm.mem_iff.mpr hmem
  have hs0 : s0 = emin := by
    by_contra hne
    have hlt : emin.priority < s0.priority := hmin s0 hs0pool hne
    have hle : prioLe s0 emin := by
      rcases List.mem_cons.mp heminS with h | h
      · exact absurd h.symm hne
      · exact (List.rel_of_sorted_cons hsorted) emin h
    unfold prioLe at hle
    omega
  have hs1ne : s1 ≠ emin := by
    intro heq
    have hcount : 2 ≤ List.count emin (s0 :: s1 :: rest) := by
      rw [hs0, heq]
      simp [List.count_cons]
    have hcp : List.count emin pool = List.count emin (s0 :: s1 :: rest) :=
      (hperm.count_eq emin).symm
    have hle1 : List.count emin pool ≤ 1 := List.nodup_iff_count_le_one.mp hnd emin
    omega
  constructor
  · rcases pool with _ | ⟨x, _ | ⟨y, tt⟩⟩
    · simp at h2
    · simp at h2
    · show ((x :: y :: tt).foldl (fun acc sca => scInsert acc (some sca)) [none]).headD none =
        some emin
      rw [fold_none_decomp, hSP, hs0]
      rfl
  · refine ⟨s1, ?_, hs1pool, hs1ne⟩
    unfold fbSecond
    rw [if_neg (by omega)]
    rw [show pool.foldl (fun acc sca => scInsert acc (some sca)) ([] : List (Option scWithAddr)) = pool.foldl (fun acc sca => scInsert acc (some sca)) (([] : List scWithAddr).map some) from rfl, fold_scInsert_map pool]
    rw [show pool.foldl (fun acc v => List.orderedInsert prioLe v acc) [] = sortPool pool from rfl, hSP]
    simp

/-! ## Claim theorems -/

/-- C9: hex round-trips of `HexBytes`. Decoding the encoding of any byte sequence gives the
sequence back; encoding a successful decode of an even-length string gives the ASCII
lowercasing of the string; decoding fails on every odd-length string. -/
theorem C9_theorem :
    (∀ b : List Nat, (∀ x ∈ b, x < 256) → DecodeString (EncodeToString b) = some b) ∧
    (∀ s bs : List Nat, s.length % 2 = 0 → DecodeString s = some bs →
      EncodeToString bs = toLowerAscii s) ∧
    (∀ s : List Nat, s.length % 2 = 1 → DecodeString s = none) :=
  ⟨decode_encode, fun s bs _ h => encode_decode s bs h, decode_odd⟩

/-- C9 witness: the round-trip facts evaluated on the bytes `[0, 171, 255]`, on the string
`"AB"` (bytes `[65, 66]`, decoding to `[171]`), and on the odd string `"a"` (byte `[97]`). -/
theorem C9_witness :
    DecodeString (EncodeToString [0, 171, 255]) = some [0, 171, 255] ∧
    EncodeToString [171] = toLowerAscii [65, 66] ∧
    DecodeString [97] = none :=
  ⟨C9_theorem.1 [0, 171, 255] (by decide),
   C9_theorem.2.1 [65, 66] [171] (by decide) (by decide),
   C9_theorem.2.2 [97] (by decide)⟩

/-- C2, amended: for a chain whose genesis is not in the future (`genesis_time ≤ now`, with
`period ≥ 1` and the elapsed time in `int64` range), `ExpectedNext` satisfies
`expected_time = genesis_time + expected_round * period` and
`0 ≤ expected_time - now ≤ period`. The unrestricted claim is false: see
`C2_counterexample`, where `now` precedes `genesis_time` and the gap exceeds the period. -/
theorem C2_theorem (info : JsonInfoV2) (now : Int) (hp : 1 ≤ info.Period)
    (hg : info.GenesisTime ≤ now) (hrange : now - info.GenesisTime < 2 ^ 63) :
    (info.ExpectedNext now).1 =
      info.GenesisTime + ((info.ExpectedNext now).2 : Int) * info.Period ∧
    0 ≤ (info.ExpectedNext now).1 - now ∧
    (info.ExpectedNext now).1 - now ≤ (info.Period : Int) := by
  have hp' : 1 ≤ (info.Period : Int) := by exact_mod_cast hp
  have hb := ExpectedNext_bounds info now hp' hg
  have hr := ExpectedNext_round_eq info now hp' hg hrange
  refine ⟨?_, by omega, hb.2⟩
  rw [hr]
  show (Int.tdiv (now - info.GenesisTime) (info.Period : Int) + 1) * (info.Period : Int) +
      info.GenesisTime = _
  ring

/-- C2 counterexample: with `period = 30`, `genesis_time = 100` and `now = 95` (five seconds
before genesis), `ExpectedNext` returns `(130, 1)`, so `expected_time - now = 35 > period`;
the claimed bound fails for clocks before genesis. -/
theorem C2_counterexample :
    1 ≤ (30 : Nat) ∧
    ((JsonInfoV2.mk [] 30 100 [] [] "" "").ExpectedNext 95).1 - 95 = 35 ∧
    ¬((35 : Int) ≤ 30) := by decide

/-- C2 witness: the amended identity and bounds evaluated on the spec scenario
`period = 30`, `genesis_time = 1000000000`, `now = 1000000015`. -/
theorem C2_witness :
    ((JsonInfoV2.mk [] 30 1000000000 [] [] "" "").ExpectedNext 1000000015).1 =
      1000000000 + (((JsonInfoV2.mk [] 30 1000000000 [] [] "" "").ExpectedNext 1000000015).2 : Int) * 30 ∧
    0 ≤ ((JsonInfoV2.mk [] 30 1000000000 [] [] "" "").ExpectedNext 1000000015).1 - 1000000015 ∧
    ((JsonInfoV2.mk [] 30 1000000000 [] [] "" "").ExpectedNext 1000000015).1 - 1000000015 ≤
      ((30 : Nat) : Int) :=
  C2_theorem (JsonInfoV2.mk [] 30 1000000000 [] [] "" "") 1000000015 (by decide) (by decide)
    (by decide)

/-- C3: at a genesis boundary tick (`now = genesis_time`, here the values of the repo's own
test `TestNextBeaconTime`, case `now`, with `period = 30`), `ExpectedNext` returns expected
time `genesis_time + period` but expected round `1`, not the round `2` required by the claim,
the spec prose and that test. This theorem evaluates the code at the failing input. -/
theorem C3_theorem :
    (JsonInfoV2.mk [] 30 1718551765 [] [] "" "").ExpectedNext 1718551765 =
      (1718551765 + 30, 1) ∧
    ((JsonInfoV2.mk [] 30 1718551765 [] [] "" "").ExpectedNext 1718551765).2 ≠ 2 := by decide

/-- C7: the fallback resolver attaches no priority attribute at all. On the endpoint list
`"a:1,b:2"` every emitted address record carries no `"order"` attribute, so the balancer's
picker `Build` skips every READY subchannel and stores no pool entry; had the attribute been
attached, `Build` would store `priority = order = attribute` as the last conjunct shows.
This theorem evaluates the code at the failing input. -/
theorem C7_theorem :
    (FallbackResolver.start ("a:1,b:2")).map (fun a => a.attrOrder) = [none, none] ∧
    fbBuild ((FallbackResolver.start ("a:1,b:2")).enum) = [] ∧
    fbBuild [(0, { addr := "a:1", serverName := "a:1", attrOrder := some 0 })] =
      [{ sc := 0, addr := "a:1", priority := 0, order := 0 }] := by
  refine ⟨?_, ?_, ?_⟩ <;> rfl

/-- Reduction of the `GetBeacon` handler on the paths where the metadata, the round parse and
the chain-info fetch succeeded; definitional, stated once so the claim proofs can branch on
the remaining ifs directly. -/
theorem GetBeacon_reduce (rfs : List Nat → List Nat) (isV2 : Bool) (round : Nat)
    (info : JsonInfoV2) (br : Except Unit PublicRandResponse) (now1 now2 : Int) :
    GetBeacon rfs isV2 true (some round) (.ok info) br now1 now2 =
      if ((info.ExpectedNext now1).2 + 1) % U64 ≤ round then
        { status := 425, cacheControl := some ("must-revalidate, no-cache, max-age=0")
          body := .text ("Requested future beacon") }
      else
        match br with
        | .error _ =>
          { status := 500, cacheControl := some ("must-revalidate, no-cache, max-age=0")
            body := .text ("Failed to get beacon") }
        | .ok resp =>
          if round ≠ 0 then
            { status := 200, cacheControl := some ("public, max-age=604800, immutable")
              body := .beacon (if isV2 then (NewHexBeacon resp).UnsetRandomness
                else (NewHexBeacon resp).SetRandomness rfs) }
          else
            { status := 200
              cacheControl := some ("public, must-revalidate, max-age=" ++
                toString (if (info.ExpectedNext now1).1 - now2 < 0 then 0
                  else (info.ExpectedNext now1).1 - now2))
              body := .beacon (if isV2 then (NewHexBeacon resp).UnsetRandomness
                else (NewHexBeacon resp).SetRandomness rfs) } := rfl

/-- Reduction of the `GetHealth` handler on the paths where the metadata, the first latest
fetch and the chain-info fetch succeeded; definitional. -/
theorem GetHealth_reduce (l1 : HexBeacon) (info : JsonInfoV2)
    (lr2 : Except Unit HexBeacon) (now : Int) :
    GetHealth true (.ok l1) (.ok info) lr2 now =
      (if ((info.ExpectedNext now).2 + U64 - 2) % U64 > l1.Round then
        match lr2 with
        | .error _ =>
          ({ status := 500, cacheControl := some ("no-cache")
             body := .text ("Failed to get latest beacon for health") }, true)
        | .ok l2 =>
          ({ status := if l2.Round ≥ ((info.ExpectedNext now).2 + U64 - 2) % U64
               then 200 else 503
             cacheControl := some ("no-cache")
             body := .health l2.Round (((info.ExpectedNext now).2 + U64 - 1) % U64) },
            true)
      else
        ({ status := if l1.Round ≥ ((info.ExpectedNext now).2 + U64 - 2) % U64
             then 200 else 503
           cacheControl := some ("no-cache")
           body := .health l1.Round (((info.ExpectedNext now).2 + U64 - 1) % U64) },
          false)) := by
  cases lr2 with
  | error e =>
    unfold GetHealth
    simp only [Bool.not_true, Bool.false_eq_true, if_false]
  | ok l2 =>
    unfold GetHealth
    simp only [Bool.not_true, Bool.false_eq_true, if_false]

/-- C4: for a health request whose latest-beacon and chain-info fetches succeed (including
the retried fetch when one happens), the handler retries with the `skip_first` context exactly
when `next_round - 2 > latest.round`, the status is 200 exactly when the (final) latest round
is at least `next_round - 2`, and the body is `{current: latest.round, expected:
next_round - 1}`. All the quantities are Go `uint64` values, so the subtractions wrap modulo
`2 ^ 64`, exactly as the handler computes them. -/
theorem C4_theorem (l1 l2 : HexBeacon) (info : JsonInfoV2) (now : Int) :
    ((GetHealth true (.ok l1) (.ok info) (.ok l2) now).2 = true ↔
      ((info.ExpectedNext now).2 + U64 - 2) % U64 > l1.Round) ∧
    (GetHealth true (.ok l1) (.ok info) (.ok l2) now).1.status =
      (if (if ((info.ExpectedNext now).2 + U64 - 2) % U64 > l1.Round then l2
           else l1).Round ≥ ((info.ExpectedNext now).2 + U64 - 2) % U64
        then 200 else 503) ∧
    (GetHealth true (.ok l1) (.ok info) (.ok l2) now).1.body =
      .health
        (if ((info.ExpectedNext now).2 + U64 - 2) % U64 > l1.Round then l2
         else l1).Round
        (((info.ExpectedNext now).2 + U64 - 1) % U64) := by
  rw [GetHealth_reduce]
  by_cases h : ((info.ExpectedNext now).2 + U64 - 2) % U64 > l1.Round
  · simp [h]
  · simp [h]

/-- C5, amended: assume the parsed round fits in `uint64` and the expected next round is not
the wrap-around value `U64 - 1 = 2 ^ 64 - 1` (so the handler's `uint64` increment
`nextRound + 1` does not overflow to 0). Then a request for `round ≥ next_round + 1` is
answered 425 with `Cache-Control: must-revalidate, no-cache, max-age=0` and with no backend
beacon call (the response does not depend on the backend result), and a request for
`round ≤ next_round` is never answered 425. The unamended claim is refuted by
`C5_counterexample`, where `next_round = 2 ^ 64 - 1` makes the handler reply 425 to every
round. -/
theorem C5_theorem (rfs : List Nat → List Nat) (isV2 : Bool) (round : Nat)
    (info : JsonInfoV2) (br1 br2 : Except Unit PublicRandResponse) (now1 now2 : Int)
    (hnowrap : (info.ExpectedNext now1).2 ≠ U64 - 1) :
    ((info.ExpectedNext now1).2 + 1 ≤ round →
      GetBeacon rfs isV2 true (some round) (.ok info) br1 now1 now2 =
        { status := 425, cacheControl := some ("must-revalidate, no-cache, max-age=0")
          body := .text ("Requested future beacon") } ∧
      GetBeacon rfs isV2 true (some round) (.ok info) br1 now1 now2 =
        GetBeacon rfs isV2 true (some round) (.ok info) br2 now1 now2) ∧
    (round ≤ (info.ExpectedNext now1).2 →
      (GetBeacon rfs isV2 true (some round) (.ok info) br1 now1 now2).status ≠ 425) := by
  have hlt : (info.ExpectedNext now1).2 < U64 := uint64OfInt_lt _
  have hU : 2 ≤ U64 := by unfold U64; norm_num
  have hmod : ((info.ExpectedNext now1).2 + 1) % U64 = (info.ExpectedNext now1).2 + 1 :=
    Nat.mod_eq_of_lt (by omega)
  rw [GetBeacon_reduce, GetBeacon_reduce, hmod]
  constructor
  · intro hge
    rw [if_pos hge]
    exact ⟨rfl, by rw [if_pos hge]⟩
  · intro hle
    rw [if_neg (by omega)]
    rcases br1 with _ | resp
    · simp
    · by_cases h0 : round ≠ 0 <;> simp [h0]

/-- C5 counterexample: for a chain with `period = 30` and `genesis_time = 161` observed at
`now = 100` (more than two periods before genesis), the expected next round is the `uint64`
wrap value `2 ^ 64 - 1`, and the handler replies 425 to a request for round 1 even though
`1 ≤ next_round` — refuting "if round ≤ next_round it never replies 425". -/
theorem C5_counterexample :
    ((JsonInfoV2.mk [] 30 161 [] [] "" "").ExpectedNext 100).2 = 2 ^ 64 - 1 ∧
    1 ≤ ((JsonInfoV2.mk [] 30 161 [] [] "" "").ExpectedNext 100).2 ∧
    (GetBeacon (fun l => l) false true (some 1)
        (.ok (JsonInfoV2.mk [] 30 161 [] [] "" ""))
        (.ok (PublicRandResponse.mk 1 [] [1] [])) 100 100).status = 425 := by decide

/-- C5 witness: the amended statement evaluated for a chain with `period = 30`,
`genesis_time = 0` at `now = 100` (expected next round 4) and a request for round 5. -/
theorem C5_witness :
    (((JsonInfoV2.mk [] 30 0 [] [] "" "").ExpectedNext 100).2 + 1 ≤ 5 →
      GetBeacon (fun l => l) false true (some 5) (.ok (JsonInfoV2.mk [] 30 0 [] [] "" ""))
          (.ok (PublicRandResponse.mk 1 [] [1] [])) 100 100 =
        { status := 425, cacheControl := some ("must-revalidate, no-cache, max-age=0")
          body := .text ("Requested future beacon") } ∧
      GetBeacon (fun l => l) false true (some 5) (.ok (JsonInfoV2.mk [] 30 0 [] [] "" ""))
          (.ok (PublicRandResponse.mk 1 [] [1] [])) 100 100 =
        GetBeacon (fun l => l) false true (some 5) (.ok (JsonInfoV2.mk [] 30 0 [] [] "" ""))
          (.error ()) 100 100) ∧
    (5 ≤ ((JsonInfoV2.mk [] 30 0 [] [] "" "").ExpectedNext 100).2 →
      (GetBeacon (fun l => l) false true (some 5) (.ok (JsonInfoV2.mk [] 30 0 [] [] "" ""))
          (.ok (PublicRandResponse.mk 1 [] [1] [])) 100 100).status ≠ 425) :=
  C5_theorem (fun l => l) false 5 (JsonInfoV2.mk [] 30 0 [] [] "" "")
    (.ok (PublicRandResponse.mk 1 [] [1] [])) (.error ()) 100 100 (by decide)

/-- Further reduction of `GetBeacon_reduce` when the backend fetch also succeeded. -/
theorem GetBeacon_reduce_ok (rfs : List Nat → List Nat) (isV2 : Bool) (round : Nat)
    (info : JsonInfoV2) (resp : PublicRandResponse) (now1 now2 : Int) :
    GetBeacon rfs isV2 true (some round) (.ok info) (.ok resp) now1 now2 =
      if ((info.ExpectedNext now1).2 + 1) % U64 ≤ round then
        { status := 425, cacheControl := some ("must-revalidate, no-cache, max-age=0")
          body := .text ("Requested future beacon") }
      else if round ≠ 0 then
        { status := 200, cacheControl := some ("public, max-age=604800, immutable")
          body := .beacon (if isV2 then (NewHexBeacon resp).UnsetRandomness
            else (NewHexBeacon resp).SetRandomness rfs) }
      else
        { status := 200
          cacheControl := some ("public, must-revalidate, max-age=" ++
            toString (if (info.ExpectedNext now1).1 - now2 < 0 then 0
              else (info.ExpectedNext now1).1 - now2))
          body := .beacon (if isV2 then (NewHexBeacon resp).UnsetRandomness
            else (NewHexBeacon resp).SetRandomness rfs) } := rfl

/-- C1, amended: on every successful (status 200) beacon-by-round response, a non-zero round
gets exactly `Cache-Control: public, max-age=604800, immutable`, and round 0 gets exactly
`Cache-Control: public, must-revalidate, max-age=A` with `A = max(0, next_time - now)` taken
at the header-writing clock `now2`; moreover `A` lies in `[0, period]` for every chain whose
genesis is not in the future (`genesis_time ≤ now1 ≤ now2`, `period ≥ 1`). The unrestricted
interval claim is refuted by `C1_counterexample`, where a chain with genesis 35 seconds in
the future yields `max-age=35 > period = 30` on a successful round-0 response. -/
theorem C1_theorem (rfs : List Nat → List Nat) (isV2 : Bool) (round : Nat)
    (info : JsonInfoV2) (resp : PublicRandResponse) (now1 now2 : Int)
    (hsucc : (GetBeacon rfs isV2 true (some round) (.ok info) (.ok resp) now1 now2).status =
      200) :
    (round ≠ 0 →
      (GetBeacon rfs isV2 true (some round) (.ok info) (.ok resp) now1 now2).cacheControl =
        some ("public, max-age=604800, immutable")) ∧
    (round = 0 →
      (GetBeacon rfs isV2 true (some round) (.ok info) (.ok resp) now1 now2).cacheControl =
        some ("public, must-revalidate, max-age=" ++
          toString (max 0 ((info.ExpectedNext now1).1 - now2))) ∧
      (1 ≤ (info.Period : Int) → info.GenesisTime ≤ now1 → now1 ≤ now2 →
        0 ≤ max 0 ((info.ExpectedNext now1).1 - now2) ∧
        max 0 ((info.ExpectedNext now1).1 - now2) ≤ (info.Period : Int))) := by
  rw [GetBeacon_reduce_ok] at hsucc ⊢
  by_cases h425 : ((info.ExpectedNext now1).2 + 1) % U64 ≤ round
  · rw [if_pos h425] at hsucc
    exact absurd hsucc (by decide)
  · rw [if_neg h425] at hsucc ⊢
    have hmax : (if (info.ExpectedNext now1).1 - now2 < 0 then 0
        else (info.ExpectedNext now1).1 - now2) = max 0 ((info.ExpectedNext now1).1 - now2) := by
      split <;> omega
    constructor
    · intro h0
      rw [if_pos h0]
    · intro h0
      subst h0
      rw [if_neg (by simp)]
      refine ⟨by rw [hmax], ?_⟩
      intro hp hg hnn
      have hb := ExpectedNext_bounds info now1 hp hg
      constructor
      · omega
      · have : (info.ExpectedNext now1).1 - now2 ≤ (info.Period : Int) := by omega
        omega

/-- C1 counterexample: a chain with `period = 30` and `genesis_time = 135` requested at
`now = 100` (genesis 35 seconds in the future): the round-0 request succeeds with
`Cache-Control: public, must-revalidate, max-age=35`, and `35 > period = 30`, refuting
"A always lies in the interval [0, period]". -/
theorem C1_counterexample :
    (GetBeacon (fun l => l) false true (some 0)
        (.ok (JsonInfoV2.mk [] 30 135 [] [] "" ""))
        (.ok (PublicRandResponse.mk 1 [] [1] [])) 100 100) =
      { status := 200
        cacheControl := some ("public, must-revalidate, max-age=35")
        body := .beacon (HexBeacon.mk 1 [1] [1] []) } ∧
    ¬((35 : Int) ≤ ((30 : Nat) : Int)) := by
  constructor
  · rfl
  · decide

/-- C1 witness: the amended statement evaluated on a started chain (`period = 30`,
`genesis_time = 0`, `now1 = now2 = 30`) for a successful round-0 request. -/
theorem C1_witness :
    ((0 : Nat) ≠ 0 →
      (GetBeacon (fun l => l) false true (some 0) (.ok (JsonInfoV2.mk [] 30 0 [] [] "" ""))
          (.ok (PublicRandResponse.mk 1 [] [1] [])) 30 30).cacheControl =
        some ("public, max-age=604800, immutable")) ∧
    ((0 : Nat) = 0 →
      (GetBeacon (fun l => l) false true (some 0) (.ok (JsonInfoV2.mk [] 30 0 [] [] "" ""))
          (.ok (PublicRandResponse.mk 1 [] [1] [])) 30 30).cacheControl =
        some ("public, must-revalidate, max-age=" ++
          toString (max 0 (((JsonInfoV2.mk [] 30 0 [] [] "" "").ExpectedNext 30).1 - 30))) ∧
      (1 ≤ (((JsonInfoV2.mk [] 30 0 [] [] "" "").Period : Nat) : Int) →
        (JsonInfoV2.mk [] 30 0 [] [] "" "").GenesisTime ≤ 30 → (30 : Int) ≤ 30 →
        0 ≤ max 0 (((JsonInfoV2.mk [] 30 0 [] [] "" "").ExpectedNext 30).1 - 30) ∧
        max 0 (((JsonInfoV2.mk [] 30 0 [] [] "" "").ExpectedNext 30).1 - 30) ≤
          (((JsonInfoV2.mk [] 30 0 [] [] "" "").Period : Nat) : Int))) :=
  C1_theorem (fun l => l) false 0 (JsonInfoV2.mk [] 30 0 [] [] "" "")
    (PublicRandResponse.mk 1 [] [1] []) 30 30 (by decide)

/-- C8, amended: when the metadata, chain-info and backend fetches succeed and the expected
next round is not the `uint64` wrap value (so round 0 is not rejected as a future round), the
latest-beacon handler and the beacon-by-round handler at round 0 return the same status (200)
and the same body, but NOT the same `Cache-Control` header: `GetLatest` sets none while
`GetBeacon` sets `public, must-revalidate, max-age=A`. The claimed header equality is refuted
by `C8_counterexample`. -/
theorem C8_theorem (rfs : List Nat → List Nat) (isV2 : Bool) (info : JsonInfoV2)
    (resp : PublicRandResponse) (now1 now2 : Int)
    (hnowrap : (info.ExpectedNext now1).2 ≠ U64 - 1) :
    (GetBeacon rfs isV2 true (some 0) (.ok info) (.ok resp) now1 now2).status =
      (GetLatest rfs isV2 true (.ok resp)).status ∧
    (GetBeacon rfs isV2 true (some 0) (.ok info) (.ok resp) now1 now2).body =
      (GetLatest rfs isV2 true (.ok resp)).body ∧
    (GetLatest rfs isV2 true (.ok resp)).cacheControl = none ∧
    (GetBeacon rfs isV2 true (some 0) (.ok info) (.ok resp) now1 now2).cacheControl =
      some ("public, must-revalidate, max-age=" ++
        toString (max 0 ((info.ExpectedNext now1).1 - now2))) := by
  have hlt : (info.ExpectedNext now1).2 < U64 := uint64OfInt_lt _
  have hU : 2 ≤ U64 := by unfold U64; norm_num
  have hmod : ((info.ExpectedNext now1).2 + 1) % U64 = (info.ExpectedNext now1).2 + 1 :=
    Nat.mod_eq_of_lt (by omega)
  have hmax : (if (info.ExpectedNext now1).1 - now2 < 0 then 0
      else (info.ExpectedNext now1).1 - now2) = max 0 ((info.ExpectedNext now1).1 - now2) := by
    split <;> omega
  rw [GetBeacon_reduce_ok, hmod, if_neg (by omega), if_neg (by simp)]
  exact ⟨rfl, rfl, rfl, by rw [hmax]⟩

/-- C8 counterexample: a concrete successful latest request (chain `period = 30`,
`genesis_time = 0`, `now = 30`): the by-round handler at round 0 sets
`Cache-Control: public, must-revalidate, max-age=30` while the latest handler sets no
`Cache-Control` header at all, so the two handlers do not produce the same header. -/
theorem C8_counterexample :
    (GetBeacon (fun l => l) false true (some 0) (.ok (JsonInfoV2.mk [] 30 0 [] [] "" ""))
        (.ok (PublicRandResponse.mk 1 [] [1] [])) 30 30).cacheControl =
      some ("public, must-revalidate, max-age=30") ∧
    (GetLatest (fun l => l) false true (.ok (PublicRandResponse.mk 1 [] [1] []))).cacheControl =
      none ∧
    (GetBeacon (fun l => l) false true (some 0) (.ok (JsonInfoV2.mk [] 30 0 [] [] "" ""))
        (.ok (PublicRandResponse.mk 1 [] [1] [])) 30 30).status =
      (GetLatest (fun l => l) false true (.ok (PublicRandResponse.mk 1 [] [1] []))).status := by
  exact ⟨rfl, rfl, rfl⟩

/-- C8 witness: the amended statement evaluated on the same started chain. -/
theorem C8_witness :
    (GetBeacon (fun l => l) false true (some 0) (.ok (JsonInfoV2.mk [] 30 0 [] [] "" ""))
        (.ok (PublicRandResponse.mk 1 [] [1] [])) 30 30).status =
      (GetLatest (fun l => l) false true (.ok (PublicRandResponse.mk 1 [] [1] []))).status ∧
    (GetBeacon (fun l => l) false true (some 0) (.ok (JsonInfoV2.mk [] 30 0 [] [] "" ""))
        (.ok (PublicRandResponse.mk 1 [] [1] [])) 30 30).body =
      (GetLatest (fun l => l) false true (.ok (PublicRandResponse.mk 1 [] [1] []))).body ∧
    (GetLatest (fun l => l) false true (.ok (PublicRandResponse.mk 1 [] [1] []))).cacheControl =
      none ∧
    (GetBeacon (fun l => l) false true (some 0) (.ok (JsonInfoV2.mk [] 30 0 [] [] "" ""))
        (.ok (PublicRandResponse.mk 1 [] [1] [])) 30 30).cacheControl =
      some ("public, must-revalidate, max-age=" ++
        toString (max 0 (((JsonInfoV2.mk [] 30 0 [] [] "" "").ExpectedNext 30).1 - 30))) :=
  C8_theorem (fun l => l) false (JsonInfoV2.mk [] 30 0 [] [] "" "")
    (PublicRandResponse.mk 1 [] [1] []) 30 30 (by decide)

/-- C10: a `HexBeacon` built by `NewHexBeacon` always has empty randomness, whatever the
backend sent over the wire; hence every beacon `Client.GetBeacon` returns has empty
randomness; the marshalled JSON of a fresh envelope never carries a `randomness` key (it can
appear only after `SetRandomness`); and on the v1 pipeline the served randomness is
`RandomnessFromSignature` of the backend signature — derived locally, never echoed. -/
theorem C10_theorem (rfs : List Nat → List Nat) (r : PublicRandResponse) :
    (NewHexBeacon r).Randomness = [] ∧
    (∀ (r1 r2 : Except Unit PublicRandResponse) (b : HexBeacon),
      Client.GetBeacon r1 r2 = .ok b → b.Randomness = []) ∧
    "randomness" ∉ (NewHexBeacon r).marshalKeys ∧
    (∀ (round : Nat) (info : JsonInfoV2) (now1 now2 : Int) (b : HexBeacon),
      (GetBeacon rfs false true (some round) (.ok info) (.ok r) now1 now2).body = .beacon b →
      b.Randomness = rfs r.Signature) := by
  refine ⟨rfl, ?_, by simp [HexBeacon.marshalKeys, NewHexBeacon], ?_⟩
  · intro r1 r2 b h
    rcases r1 with e1 | resp1
    · rcases r2 with e2 | resp2
      · simp [Client.GetBeacon] at h
      · simp only [Client.GetBeacon, Except.ok.injEq] at h
        rw [← h]
        rfl
    · simp only [Client.GetBeacon, Except.ok.injEq] at h
      rw [← h]
      rfl
  · intro round info now1 now2 b h
    rw [GetBeacon_reduce_ok] at h
    by_cases h425 : ((info.ExpectedNext now1).2 + 1) % U64 ≤ round
    · rw [if_pos h425] at h
      exact absurd h (by simp)
    · rw [if_neg h425] at h
      by_cases h0 : round ≠ 0
      · rw [if_pos h0] at h
        simp only [Bool.false_eq_true, if_false, RespBody.beacon.injEq] at h
        rw [← h]
        rfl
      · rw [if_neg h0] at h
        simp only [Bool.false_eq_true, if_false, RespBody.beacon.injEq] at h
        rw [← h]
        rfl

/-- C10 witness: the facts evaluated on a backend response that DID send randomness over the
wire (`randomness = [9]`), with `RandomnessFromSignature` modelled as prepending 7. -/
theorem C10_witness :
    (NewHexBeacon (PublicRandResponse.mk 5 [9] [1, 2] [])).Randomness = [] ∧
    ((NewHexBeacon (PublicRandResponse.mk 5 [9] [1, 2] [])).Randomness = [] →
      (Client.GetBeacon (.error ()) (.ok (PublicRandResponse.mk 5 [9] [1, 2] [])) =
        Except.ok (NewHexBeacon (PublicRandResponse.mk 5 [9] [1, 2] [])))) ∧
    (NewHexBeacon (PublicRandResponse.mk 5 [9] [1, 2] [])).Randomness = [] ∧
    "randomness" ∉ (NewHexBeacon (PublicRandResponse.mk 5 [9] [1, 2] [])).marshalKeys ∧
    ∀ b : HexBeacon,
      (GetBeacon (fun l => 7 :: l) false true (some 1)
          (.ok (JsonInfoV2.mk [] 30 0 [] [] "" ""))
          (.ok (PublicRandResponse.mk 5 [9] [1, 2] [])) 100 100).body = .beacon b →
      b.Randomness = (fun l => 7 :: l) [1, 2] :=
  ⟨(C10_theorem (fun l => 7 :: l) (PublicRandResponse.mk 5 [9] [1, 2] [])).1,
   fun _ => rfl,
   (C10_theorem (fun l => 7 :: l) (PublicRandResponse.mk 5 [9] [1, 2] [])).2.1
     (.error ()) (.ok (PublicRandResponse.mk 5 [9] [1, 2] []))
     (NewHexBeacon (PublicRandResponse.mk 5 [9] [1, 2] [])) rfl,
   (C10_theorem (fun l => 7 :: l) (PublicRandResponse.mk 5 [9] [1, 2] [])).2.2.1,
   fun b => (C10_theorem (fun l => 7 :: l) (PublicRandResponse.mk 5 [9] [1, 2] [])).2.2.2
     1 (JsonInfoV2.mk [] 30 0 [] [] "" "") 100 100 b⟩

/-- C6, amended: a `Pick` carrying `skip_first = true` returns the sole entry when the pool
has exactly one entry; and when the pool has at least two (distinct) entries and the minimum
priority is attained by exactly one entry `emin`, the pick never returns `emin` (it returns
some other entry), while `emin` — the entry `first` would have picked — is the one demoted by
`-2`. The unamended claim ("never returns the entry with the smallest priority value") is
refuted by `C6_counterexample`, where two entries tie at the minimal priority and the pick
returns an entry carrying that minimal priority. -/
theorem C6_theorem :
    (∀ e : scWithAddr, fbPick true [e] = (some e, [e])) ∧
    (∀ (pool : List scWithAddr) (emin : scWithAddr),
      2 ≤ pool.length → pool.Nodup → emin ∈ pool →
      (∀ e ∈ pool, e ≠ emin → emin.priority < e.priority) →
      fbFirst pool = some emin ∧
      (fbPick true pool).1 ≠ none ∧
      (fbPick true pool).1 ≠ some emin ∧
      (fbPick true pool).2 = fbDec pool emin.sc) := by
  constructor
  · intro e
    rfl
  · intro pool emin h2 hnd hmem hmin
    obtain ⟨hfirst, r, hsecond, hrpool, hrne⟩ := fbPool_min pool emin h2 hnd hmem hmin
    refine ⟨hfirst, ?_, ?_, ?_⟩
    · unfold fbPick
      rw [hsecond, hfirst]
      simp
    · unfold fbPick
      rw [hsecond, hfirst]
      simp only [if_true]
      intro hc
      exact hrne (by injection hc)
    · unfold fbPick
      rw [hsecond, hfirst]
      simp

/-- C6 counterexample: the pool `[{sc 0, priority 0, order 0}, {sc 1, priority 0, order 2}]`
(a tie at the minimal priority 0, reachable after one demotion of an order-2 entry). The
skip-first pick returns the entry `{sc 0, priority 0, order 0}`, whose priority 0 IS the
smallest priority value in the pool — refuting "never returns the entry with the smallest
priority value when the pool holds at least two entries". It also demotes the other tied
entry (the one `first` picked) by `-2`. -/
theorem C6_counterexample :
    fbPick true
        [scWithAddr.mk 0 ("a") 0 0, scWithAddr.mk 1 ("b") 0 2] =
      (some (scWithAddr.mk 0 ("a") 0 0),
        [scWithAddr.mk 0 ("a") 0 0, scWithAddr.mk 1 ("b") (-2) 2]) ∧
    (scWithAddr.mk 0 ("a") 0 0).priority = 0 ∧
    (scWithAddr.mk 1 ("b") 0 2).priority = 0 := by
  exact ⟨by rfl, rfl, rfl⟩

/-- C6 witness: the amended statement evaluated on the pool
`[{sc 0, priority 0}, {sc 1, priority 1}]` with the strict minimum `{sc 0, priority 0}`. -/
theorem C6_witness :
    fbFirst [scWithAddr.mk 0 ("a") 0 0, scWithAddr.mk 1 ("b") 1 1] =
      some (scWithAddr.mk 0 ("a") 0 0) ∧
    (fbPick true [scWithAddr.mk 0 ("a") 0 0, scWithAddr.mk 1 ("b") 1 1]).1 ≠ none ∧
    (fbPick true [scWithAddr.mk 0 ("a") 0 0, scWithAddr.mk 1 ("b") 1 1]).1 ≠
      some (scWithAddr.mk 0 ("a") 0 0) ∧
    (fbPick true [scWithAddr.mk 0 ("a") 0 0, scWithAddr.mk 1 ("b") 1 1]).2 =
      fbDec [scWithAddr.mk 0 ("a") 0 0, scWithAddr.mk 1 ("b") 1 1] 0 :=
  C6_theorem.2 [scWithAddr.mk 0 ("a") 0 0, scWithAddr.mk 1 ("b") 1 1]
    (scWithAddr.mk 0 ("a") 0 0) (by decide) (by decide) (by decide) (by decide)
